import Mathlib

/-!
# Broker test fixtures of `pkg/reconciler/broker/broker_test_helper.go`

A shallow embedding of the option functions that build `v1.Broker` fixtures,
and of the condition-set aggregation engine they call into.

The option functions and `NewBroker` are translated from the Go source.  The
engine (`InitializeConditions`, `MarkTrue`, `MarkFalse`, ... of the knative
libraries) and `rabbitBrokerCondSet` / `MarkExchangeFailed` of this package are
not part of the source file; they are modelled from the specification and each
such definition says so.  Library values the file only passes along
(`TestHelper.ReadyBrokerStatus`, annotation keys, `SetDefaults`) are parameters.

A Go panic is the `none` of an `Option`.  The clock the engine reads when it
stamps a condition is the explicit argument `now`.
-/

namespace Rabbit

/-! ## Data model -/

/-- Seconds since the epoch, as `time.Unix(sec, 0)` counts them. -/
abbrev Time := Nat

/-- A Go `map[string]string` that is not nil, read extensionally. -/
abbrev StrMap := String → Option String

/-- The tri-state status of a condition. -/
inductive ConditionStatus where
  | True
  | False
  | Unknown
deriving DecidableEq, Repr

/-- A single named health fact (spec §3, Condition). -/
structure Condition where
  type : String
  status : ConditionStatus
  reason : String
  message : String
  lastTransitionTime : Time
deriving DecidableEq, Repr

/-- The static schema of a condition set (spec §3, ConditionSet). -/
structure ConditionSet where
  aggregateType : String
  dependents : List String
deriving DecidableEq, Repr

/-- The user part of a URL (`url.Userinfo`). -/
structure Userinfo where
  username : String
  password : String
  passwordSet : Bool
deriving DecidableEq, Repr

/-- The fields of `apis.URL`, which is Go's `url.URL`. -/
structure URL where
  Scheme : String
  Opaque : String
  User : Option Userinfo
  Host : String
  Path : String
  RawPath : String
  ForceQuery : Bool
  RawQuery : String
  Fragment : String
  RawFragment : String
deriving DecidableEq, Repr

/-- The fields of `duckv1.KReference`. -/
structure KReference where
  Kind : String
  Namespace : String
  Name : String
  APIVersion : String
deriving DecidableEq, Repr

/-- The fields of `metav1.ObjectMeta` that the fixtures read or write. -/
structure ObjectMeta where
  Name : String
  Namespace : String
  Generation : Int
  ResourceVersion : String
  Finalizers : List String
  DeletionTimestamp : Option Time
  Annotations : Option StrMap

/-- The part of `v1.BrokerSpec` the fixtures write. -/
structure BrokerSpec where
  Config : Option KReference
deriving DecidableEq, Repr

/-- The status of a Broker (spec §3, StatusAccessor): observed generation,
conditions keyed by type, resolved address and status annotations. -/
structure BrokerStatus where
  ObservedGeneration : Int
  Conditions : String → Option Condition
  Address : Option URL
  Annotations : Option StrMap

/-- A `v1.Broker`. -/
structure Broker where
  ObjectMeta : ObjectMeta
  Spec : BrokerSpec
  Status : BrokerStatus

/-- A `BrokerOption`, `func(*v1.Broker)`: the Broker after the call, or `none`
when the call panics. -/
abbrev BrokerOption := Broker → Option Broker

/-- A map with `k` set to `v`: Go's `m[k] = v`. -/
def StrMap.set (m : StrMap) (k v : String) : StrMap :=
  fun x => if x = k then some v else m x

/-- `make(map[string]string, 1)`: a map with no entries. -/
def StrMap.empty : StrMap := fun _ => none

/-- Reading key `k` of a possibly nil map: Go's `m[k]` with its `ok` result. -/
def lookup (m : Option StrMap) (k : String) : Option String :=
  match m with
  | none => none
  | some f => f k

/-- The zero value of `metav1.ObjectMeta`. -/
def ObjectMeta.zero : ObjectMeta :=
  { Name := "", Namespace := "", Generation := 0, ResourceVersion := "",
    Finalizers := [], DeletionTimestamp := none, Annotations := none }

/-- The zero value of `v1.BrokerStatus`. -/
def BrokerStatus.zero : BrokerStatus :=
  { ObservedGeneration := 0, Conditions := fun _ => none, Address := none,
    Annotations := none }

/-- The zero value of `v1.Broker`. -/
def Broker.zero : Broker :=
  { ObjectMeta := ObjectMeta.zero, Spec := { Config := none },
    Status := BrokerStatus.zero }

/-! ## The aggregation engine (modelled from the specification) -/

/-- Modelled from the spec: `NewConditionSet(aggregateType, dependentTypes...)`
of §4.1, absent from the source: it fails when a dependent type collides with
the aggregate type or duplicates another dependent. -/
def NewConditionSet (aggregateType : String) (dependentTypes : List String) :
    Option ConditionSet :=
  if aggregateType ∈ dependentTypes then none
  else if dependentTypes.Nodup then
    some { aggregateType := aggregateType, dependents := dependentTypes }
  else none

/-- Modelled from the spec: `rabbitBrokerCondSet`, declared elsewhere in this
package: the condition set of the scenario of §8, aggregate "Ready" over the
dependents "TriggerChannel", "Exchange", "Filter", "Ingress" in that order. -/
def rabbitBrokerCondSet : ConditionSet :=
  { aggregateType := "Ready",
    dependents := ["TriggerChannel", "Exchange", "Filter", "Ingress"] }

/-- The status stored for condition type `t`, when there is one. -/
def storedStatus (s : BrokerStatus) (t : String) : Option ConditionStatus :=
  (s.Conditions t).map Condition.status

/-- The status of condition type `t` as the aggregation reads it: a type with
no stored condition counts as Unknown, the status `InitializeConditions` seeds. -/
def statusOf (s : BrokerStatus) (t : String) : ConditionStatus :=
  match s.Conditions t with
  | some c => c.status
  | none => ConditionStatus.Unknown

/-- The reason stored for condition type `t`, empty when there is none. -/
def reasonOf (s : BrokerStatus) (t : String) : String :=
  match s.Conditions t with
  | some c => c.reason
  | none => ""

/-- The message stored for condition type `t`, empty when there is none. -/
def messageOf (s : BrokerStatus) (t : String) : String :=
  match s.Conditions t with
  | some c => c.message
  | none => ""

/-- Modelled from the spec: storing one condition (§3): at most one condition
per type, and `lastTransitionTime` moves to `now` only when the status differs
from the one stored before. -/
def setCondition (now : Time) (t : String) (st : ConditionStatus)
    (reason message : String) (s : BrokerStatus) : BrokerStatus :=
  let time : Time :=
    match s.Conditions t with
    | some old => if old.status = st then old.lastTransitionTime else now
    | none => now
  { s with
    Conditions := fun k =>
      if k = t then
        some { type := t, status := st, reason := reason, message := message,
               lastTransitionTime := time }
      else s.Conditions k }

/-- Modelled from the spec: the verdict of the aggregate recomputation of §4.2,
as status, reason and message.
1. a dependent is False: False, with reason and message of the first False
dependent in declared order; 2. else a dependent is Unknown: Unknown, with
reason and message of the first such dependent; 3. else True with reason and
message cleared. -/
def aggregateOf (cs : ConditionSet) (s : BrokerStatus) :
    ConditionStatus × String × String :=
  match cs.dependents.find? (fun t => statusOf s t = ConditionStatus.False) with
  | some t => (ConditionStatus.False, reasonOf s t, messageOf s t)
  | none =>
    match cs.dependents.find? (fun t => statusOf s t = ConditionStatus.Unknown) with
    | some t => (ConditionStatus.Unknown, reasonOf s t, messageOf s t)
    | none => (ConditionStatus.True, "", "")

/-- Modelled from the spec: the aggregate recomputation of §4.2, which runs
after every dependent mutation: the verdict is stored under the aggregate type. -/
def recomputeAggregate (cs : ConditionSet) (now : Time) (s : BrokerStatus) :
    BrokerStatus :=
  setCondition now cs.aggregateType (aggregateOf cs s).1 (aggregateOf cs s).2.1
    (aggregateOf cs s).2.2 s

/-- Modelled from the spec: seeding one condition type (§4.2,
`InitializeConditions`): a type not already present gets an Unknown condition
with empty reason and message, a present one is untouched. -/
def initializeCondition (now : Time) (s : BrokerStatus) (t : String) : BrokerStatus :=
  match s.Conditions t with
  | some _ => s
  | none => setCondition now t ConditionStatus.Unknown "" "" s

/-- Modelled from the spec: `InitializeConditions()` of §4.2: every dependent
type and the aggregate type not already present is inserted as Unknown. -/
def InitializeConditions (cs : ConditionSet) (now : Time) (s : BrokerStatus) :
    BrokerStatus :=
  (cs.dependents ++ [cs.aggregateType]).foldl (initializeCondition now) s

/-- Modelled from the spec: a dependent mutation of §4.2: the condition is
stored and the aggregate recomputation runs after it. -/
def markCondition (cs : ConditionSet) (now : Time) (t : String) (st : ConditionStatus)
    (reason message : String) (s : BrokerStatus) : BrokerStatus :=
  recomputeAggregate cs now (setCondition now t st reason message s)

/-- Modelled from the spec: `MarkTrue(type)` of §4.2: a type that is not a
declared dependent fails loudly; otherwise the dependent becomes True with
reason and message cleared and the aggregate is recomputed. -/
def MarkTrue (cs : ConditionSet) (now : Time) (t : String) (s : BrokerStatus) :
    Option BrokerStatus :=
  if t ∈ cs.dependents then some (markCondition cs now t ConditionStatus.True "" "" s)
  else none

/-- Modelled from the spec: `MarkFalse(type, reason, message)` of §4.2. -/
def MarkFalse (cs : ConditionSet) (now : Time) (t reason message : String)
    (s : BrokerStatus) : Option BrokerStatus :=
  if t ∈ cs.dependents then
    some (markCondition cs now t ConditionStatus.False reason message s)
  else none

/-- Modelled from the spec: `MarkUnknown(type, reason, message)` of §4.2. -/
def MarkUnknown (cs : ConditionSet) (now : Time) (t reason message : String)
    (s : BrokerStatus) : Option BrokerStatus :=
  if t ∈ cs.dependents then
    some (markCondition cs now t ConditionStatus.Unknown reason message s)
  else none

/-- Modelled from the spec: `SetAddress(url)` of §4.2: unconditionally
overwrites the resolved address. -/
def SetAddress (url : Option URL) (s : BrokerStatus) : BrokerStatus :=
  { s with Address := url }

/-- Modelled from the spec: the endpoint-availability signal of a probed
sub-resource, in the three cases `PropagateAvailability` tells apart (§4.2); the
diagnostics the spec leaves open travel with the case. -/
inductive AvailabilityProbe where
  | allAvailable
  | noneAvailable (message : String)
  | indeterminate (reason message : String)
deriving DecidableEq, Repr

/-- Modelled from the spec: the readiness signal of a probed channel (§4.2,
§6): confirmed ready with its resolved address, confirmed not ready, or
indeterminate. -/
inductive ChannelProbe where
  | ready (address : URL)
  | notReady (reason message : String)
  | indeterminate (reason message : String)
deriving DecidableEq, Repr

/-- Modelled from the spec: `PropagateAvailability(type, probedStatus)` of
§4.2: all endpoints available marks True, zero available marks False with the
reason "Unavailable", an indeterminate probe marks Unknown. -/
def PropagateAvailability (cs : ConditionSet) (now : Time) (t : String)
    (p : AvailabilityProbe) (s : BrokerStatus) : Option BrokerStatus :=
  match p with
  | AvailabilityProbe.allAvailable => MarkTrue cs now t s
  | AvailabilityProbe.noneAvailable message => MarkFalse cs now t "Unavailable" message s
  | AvailabilityProbe.indeterminate reason message => MarkUnknown cs now t reason message s

/-- Modelled from the spec: `PropagateChannelReadiness(type, probedChannelStatus)`
of §4.2: the same adapter for a channel, which also publishes the channel's
resolved address once the channel is confirmed ready and never retracts it on a
later probe (the retraction trigger is left open by §9 and is not modelled). -/
def PropagateChannelReadiness (cs : ConditionSet) (now : Time) (t : String)
    (p : ChannelProbe) (s : BrokerStatus) : Option BrokerStatus :=
  match p with
  | ChannelProbe.ready address => (MarkTrue cs now t s).map (SetAddress (some address))
  | ChannelProbe.notReady reason message => MarkFalse cs now t reason message s
  | ChannelProbe.indeterminate reason message => MarkUnknown cs now t reason message s

/-- The "IsReady" view of §6: the aggregate condition is stored with status True. -/
def IsReady (cs : ConditionSet) (s : BrokerStatus) : Prop :=
  storedStatus s cs.aggregateType = some ConditionStatus.True

instance (cs : ConditionSet) (s : BrokerStatus) : Decidable (IsReady cs s) := by
  unfold IsReady; infer_instance

/-- Modelled from the spec: `MarkExchangeFailed`, declared elsewhere in this
package: marks the "Exchange" dependent of `rabbitBrokerCondSet` False. -/
def MarkExchangeFailed (now : Time) (s : BrokerStatus) (reason msg : String) :
    Option BrokerStatus :=
  MarkFalse rabbitBrokerCondSet now "Exchange" reason msg s

/-- Modelled from the spec: the library method `MarkTriggerChannelFailed`:
marks the "TriggerChannel" dependent of the registered condition set False. -/
def MarkTriggerChannelFailed (now : Time) (reason msg : String) (s : BrokerStatus) :
    Option BrokerStatus :=
  MarkFalse rabbitBrokerCondSet now "TriggerChannel" reason msg s

/-- Modelled from the spec: the library method `MarkFilterFailed`. -/
def MarkFilterFailed (now : Time) (reason msg : String) (s : BrokerStatus) :
    Option BrokerStatus :=
  MarkFalse rabbitBrokerCondSet now "Filter" reason msg s

/-- Modelled from the spec: the library method `MarkIngressFailed`. -/
def MarkIngressFailed (now : Time) (reason msg : String) (s : BrokerStatus) :
    Option BrokerStatus :=
  MarkFalse rabbitBrokerCondSet now "Ingress" reason msg s

/-- Modelled from the spec: the library method `PropagateTriggerChannelReadiness`. -/
def PropagateTriggerChannelReadiness (now : Time) (p : ChannelProbe) (s : BrokerStatus) :
    Option BrokerStatus :=
  PropagateChannelReadiness rabbitBrokerCondSet now "TriggerChannel" p s

/-- Modelled from the spec: the library method `PropagateFilterAvailability`. -/
def PropagateFilterAvailability (now : Time) (p : AvailabilityProbe) (s : BrokerStatus) :
    Option BrokerStatus :=
  PropagateAvailability rabbitBrokerCondSet now "Filter" p s

/-- Modelled from the spec: the library method `PropagateIngressAvailability`. -/
def PropagateIngressAvailability (now : Time) (p : AvailabilityProbe) (s : BrokerStatus) :
    Option BrokerStatus :=
  PropagateAvailability rabbitBrokerCondSet now "Ingress" p s

/-! ## Library values the fixtures pass along -/

/-- The annotation keys the fixtures write under: `broker.ClassAnnotationKey`
and the four `eventing.BrokerChannel...StatusAnnotationKey` constants, whose
declarations are not part of the source file. -/
structure AnnotationKeys where
  ClassAnnotationKey : String
  BrokerChannelAddressStatusAnnotationKey : String
  BrokerChannelAPIVersionStatusAnnotationKey : String
  BrokerChannelKindStatusAnnotationKey : String
  BrokerChannelNameStatusAnnotationKey : String
deriving DecidableEq, Repr

/-- The four channel keys are pairwise different strings. -/
def AnnotationKeys.ChannelKeysDistinct (k : AnnotationKeys) : Prop :=
  [k.BrokerChannelAddressStatusAnnotationKey, k.BrokerChannelAPIVersionStatusAnnotationKey,
    k.BrokerChannelKindStatusAnnotationKey, k.BrokerChannelNameStatusAnnotationKey].Nodup

instance (k : AnnotationKeys) : Decidable k.ChannelKeysDistinct := by
  unfold AnnotationKeys.ChannelKeysDistinct; infer_instance

/-- The values of the library's `v1.TestHelper` the fixtures use; the helper is
not part of the source file. -/
structure TestHelper where
  ReadyBrokerStatus : BrokerStatus
  ReadyChannelStatus : ChannelProbe
  AvailableEndpoints : AvailabilityProbe

/-! ## The option functions of `broker_test_helper.go` -/

/-- The loop `for _, opt := range o { opt(b) }` of `NewBroker`. -/
def applyOptions : List BrokerOption → Broker → Option Broker
  | [], b => some b
  | opt :: rest, b =>
    match opt b with
    | some b1 => applyOptions rest b1
    | none => none

/-- The Broker literal `NewBroker` starts from: only `Namespace` and `Name` set. -/
def newBrokerLiteral (name ns : String) : Broker :=
  { Broker.zero with
    ObjectMeta := { ObjectMeta.zero with Namespace := ns, Name := name } }

/-- `NewBroker` creates a Broker with BrokerOptions.  The call
`RegisterAlternateBrokerConditionSet(rabbitBrokerCondSet)` is why every option
below works against `rabbitBrokerCondSet`; the library's `SetDefaults` is the
parameter `SetDefaults`. -/
def NewBroker (SetDefaults : Broker → Broker) (name ns : String)
    (o : List BrokerOption) : Option Broker :=
  match applyOptions o (newBrokerLiteral name ns) with
  | some b => some (SetDefaults b)
  | none => none

/-- `WithInitBrokerConditions` initializes the Broker's conditions. -/
def WithInitBrokerConditions (now : Time) (b : Broker) : Broker :=
  { b with Status := InitializeConditions rabbitBrokerCondSet now b.Status }

/-- `WithBrokerFinalizers`. -/
def WithBrokerFinalizers (finalizers : List String) (b : Broker) : Broker :=
  { b with ObjectMeta := { b.ObjectMeta with Finalizers := finalizers } }

/-- `WithBrokerResourceVersion`. -/
def WithBrokerResourceVersion (rv : String) (b : Broker) : Broker :=
  { b with ObjectMeta := { b.ObjectMeta with ResourceVersion := rv } }

/-- `WithBrokerGeneration`. -/
def WithBrokerGeneration (gen : Int) (s : Broker) : Broker :=
  { s with ObjectMeta := { s.ObjectMeta with Generation := gen } }

/-- `WithBrokerStatusObservedGeneration`. -/
def WithBrokerStatusObservedGeneration (gen : Int) (s : Broker) : Broker :=
  { s with Status := { s.Status with ObservedGeneration := gen } }

/-- `WithBrokerDeletionTimestamp`: the timestamp is `time.Unix(1e9, 0)`. -/
def WithBrokerDeletionTimestamp (b : Broker) : Broker :=
  { b with ObjectMeta := { b.ObjectMeta with DeletionTimestamp := some 1000000000 } }

/-- `WithBrokerConfig`. -/
def WithBrokerConfig (config : Option KReference) (b : Broker) : Broker :=
  { b with Spec := { b.Spec with Config := config } }

/-- `WithBrokerAddress` sets the Broker's address. -/
def WithBrokerAddress (address : String) (b : Broker) : Broker :=
  { b with
    Status := SetAddress
      (some { Scheme := "http", Opaque := "", User := none, Host := address, Path := "",
              RawPath := "", ForceQuery := false, RawQuery := "", Fragment := "",
              RawFragment := "" })
      b.Status }

/-- `WithBrokerAddressURI` sets the Broker's address as URI. -/
def WithBrokerAddressURI (uri : Option URL) (b : Broker) : Broker :=
  { b with Status := SetAddress uri b.Status }

/-- `WithBrokerReady` sets .Status to ready: the value of
`v1.TestHelper.ReadyBrokerStatus()` is the parameter. -/
def WithBrokerReady (ReadyBrokerStatus : BrokerStatus) (b : Broker) : Broker :=
  { b with Status := ReadyBrokerStatus }

/-- `WithTriggerChannelFailed` calls .Status.MarkTriggerChannelFailed on the Broker. -/
def WithTriggerChannelFailed (now : Time) (reason msg : String) : BrokerOption :=
  fun b =>
    match MarkTriggerChannelFailed now reason msg b.Status with
    | some s => some { b with Status := s }
    | none => none

/-- `WithExchangeFailed` sets exchange condition to failed. -/
def WithExchangeFailed (now : Time) (reason msg : String) : BrokerOption :=
  fun b =>
    match MarkExchangeFailed now b.Status reason msg with
    | some s => some { b with Status := s }
    | none => none

/-- `WithFilterFailed` calls .Status.MarkFilterFailed on the Broker. -/
def WithFilterFailed (now : Time) (reason msg : String) : BrokerOption :=
  fun b =>
    match MarkFilterFailed now reason msg b.Status with
    | some s => some { b with Status := s }
    | none => none

/-- `WithIngressFailed` calls .Status.MarkIngressFailed on the Broker. -/
def WithIngressFailed (now : Time) (reason msg : String) : BrokerOption :=
  fun b =>
    match MarkIngressFailed now reason msg b.Status with
    | some s => some { b with Status := s }
    | none => none

/-- `WithTriggerChannelReady` calls .Status.PropagateTriggerChannelReadiness on
the Broker with `v1.TestHelper.ReadyChannelStatus()`, the parameter. -/
def WithTriggerChannelReady (ReadyChannelStatus : ChannelProbe) (now : Time) :
    BrokerOption :=
  fun b =>
    match PropagateTriggerChannelReadiness now ReadyChannelStatus b.Status with
    | some s => some { b with Status := s }
    | none => none

/-- `WithFilterAvailable`, with `v1.TestHelper.AvailableEndpoints()` the parameter. -/
def WithFilterAvailable (AvailableEndpoints : AvailabilityProbe) (now : Time) :
    BrokerOption :=
  fun b =>
    match PropagateFilterAvailability now AvailableEndpoints b.Status with
    | some s => some { b with Status := s }
    | none => none

/-- `WithIngressAvailable`, with `v1.TestHelper.AvailableEndpoints()` the parameter. -/
def WithIngressAvailable (AvailableEndpoints : AvailabilityProbe) (now : Time) :
    BrokerOption :=
  fun b =>
    match PropagateIngressAvailability now AvailableEndpoints b.Status with
    | some s => some { b with Status := s }
    | none => none

/-- What `annotations[key] = v` leaves in a map that was made when it was nil. -/
def withEntry (m : Option StrMap) (key v : String) : Option StrMap :=
  match m with
  | none => some (StrMap.empty.set key v)
  | some f => some (f.set key v)

/-- `WithBrokerClass`: `GetAnnotations`, make the map when nil, set the class
key, `SetAnnotations`. -/
def WithBrokerClass (k : AnnotationKeys) (bc : String) (b : Broker) : Broker :=
  { b with
    ObjectMeta :=
      { b.ObjectMeta with
        Annotations := withEntry b.ObjectMeta.Annotations k.ClassAnnotationKey bc } }

/-- `WithChannelAddressAnnotation`. -/
def WithChannelAddressAnnotation (k : AnnotationKeys) (address : String) (b : Broker) :
    Broker :=
  { b with
    Status :=
      { b.Status with
        Annotations :=
          withEntry b.Status.Annotations k.BrokerChannelAddressStatusAnnotationKey
            address } }

/-- `WithChannelAPIVersionAnnotation`. -/
def WithChannelAPIVersionAnnotation (k : AnnotationKeys) (apiVersion : String)
    (b : Broker) : Broker :=
  { b with
    Status :=
      { b.Status with
        Annotations :=
          withEntry b.Status.Annotations k.BrokerChannelAPIVersionStatusAnnotationKey
            apiVersion } }

/-- `WithChannelKindAnnotation`. -/
def WithChannelKindAnnotation (k : AnnotationKeys) (kind : String) (b : Broker) : Broker :=
  { b with
    Status :=
      { b.Status with
        Annotations :=
          withEntry b.Status.Annotations k.BrokerChannelKindStatusAnnotationKey kind } }

/-- `WithChannelNameAnnotation`. -/
def WithChannelNameAnnotation (k : AnnotationKeys) (name : String) (b : Broker) : Broker :=
  { b with
    Status :=
      { b.Status with
        Annotations :=
          withEntry b.Status.Annotations k.BrokerChannelNameStatusAnnotationKey name } }

/-- An option that cannot panic, as a `BrokerOption`. -/
def total (f : Broker → Broker) : BrokerOption := fun b => some (f b)

/-- Applying total options one after another, left to right. -/
def applyAll (fs : List (Broker → Broker)) (b : Broker) : Broker :=
  fs.foldl (fun acc f => f acc) b

/-- An option `f` writes `v` under `key` of `Status.Annotations` and nothing
else: the key holds `v`, every other key reads as before, the map exists, and
every other field of the Broker is as it was. -/
def WritesStatusKey (f : Broker → Broker) (key v : String) : Prop :=
  ∀ b : Broker,
    lookup (f b).Status.Annotations key = some v ∧
    (∀ x : String, x ≠ key → lookup (f b).Status.Annotations x = lookup b.Status.Annotations x) ∧
    (f b).Status.Annotations.isSome = true ∧
    (f b).ObjectMeta = b.ObjectMeta ∧
    (f b).Spec = b.Spec ∧
    (f b).Status.ObservedGeneration = b.Status.ObservedGeneration ∧
    (f b).Status.Conditions = b.Status.Conditions ∧
    (f b).Status.Address = b.Status.Address

/-- Example keys, pairwise different, for evaluating the options. -/
def exampleKeys : AnnotationKeys :=
  { ClassAnnotationKey := "class",
    BrokerChannelAddressStatusAnnotationKey := "channelAddress",
    BrokerChannelAPIVersionStatusAnnotationKey := "channelAPIVersion",
    BrokerChannelKindStatusAnnotationKey := "channelKind",
    BrokerChannelNameStatusAnnotationKey := "channelName" }

/-- An example status in which the aggregate and every dependent of
`rabbitBrokerCondSet` are stored True. -/
def exampleReadyStatus : BrokerStatus :=
  { BrokerStatus.zero with
    Conditions := fun t =>
      if t ∈ rabbitBrokerCondSet.aggregateType :: rabbitBrokerCondSet.dependents then
        some { type := t, status := ConditionStatus.True, reason := "", message := "",
               lastTransitionTime := 0 }
      else none }

/-- An example of the library's test helper values. -/
def exampleHelper : TestHelper :=
  { ReadyBrokerStatus := exampleReadyStatus,
    ReadyChannelStatus :=
      ChannelProbe.ready
        { Scheme := "http", Opaque := "", User := none, Host := "channel.example",
          Path := "", RawPath := "", ForceQuery := false, RawQuery := "", Fragment := "",
          RawFragment := "" },
    AvailableEndpoints := AvailabilityProbe.allAvailable }

/-- Every type of the condition set has a stored condition, which is what
`InitializeConditions` establishes. -/
def ConditionsInitialized (cs : ConditionSet) (s : BrokerStatus) : Prop :=
  ∀ t ∈ cs.dependents ++ [cs.aggregateType], (s.Conditions t).isSome = true

instance (cs : ConditionSet) (s : BrokerStatus) : Decidable (ConditionsInitialized cs s) := by
  unfold ConditionsInitialized; infer_instance

/-- The four failure options of the file, named by the dependent they mark. -/
inductive FailedOption where
  | triggerChannel
  | exchange
  | filter
  | ingress
deriving DecidableEq, Repr

/-- The condition type a failure option marks. -/
def FailedOption.dependent : FailedOption → String
  | FailedOption.triggerChannel => "TriggerChannel"
  | FailedOption.exchange => "Exchange"
  | FailedOption.filter => "Filter"
  | FailedOption.ingress => "Ingress"

/-- The option function of the file behind each failure option. -/
def FailedOption.run (o : FailedOption) (now : Time) (reason msg : String) : BrokerOption :=
  match o with
  | FailedOption.triggerChannel => WithTriggerChannelFailed now reason msg
  | FailedOption.exchange => WithExchangeFailed now reason msg
  | FailedOption.filter => WithFilterFailed now reason msg
  | FailedOption.ingress => WithIngressFailed now reason msg

/-- The place of a failure option's dependent in the declared order of
`rabbitBrokerCondSet`. -/
def FailedOption.position (o : FailedOption) : Nat :=
  rabbitBrokerCondSet.dependents.indexOf o.dependent

/-- The dependent-marking options of the file, with their arguments. -/
inductive MarkOption where
  | triggerChannelFailed (now : Time) (reason msg : String)
  | exchangeFailed (now : Time) (reason msg : String)
  | filterFailed (now : Time) (reason msg : String)
  | ingressFailed (now : Time) (reason msg : String)
  | triggerChannelReady (ReadyChannelStatus : ChannelProbe) (now : Time)
  | filterAvailable (AvailableEndpoints : AvailabilityProbe) (now : Time)
  | ingressAvailable (AvailableEndpoints : AvailabilityProbe) (now : Time)
deriving DecidableEq, Repr

/-- The option function of the file behind each dependent-marking option. -/
def MarkOption.run : MarkOption → BrokerOption
  | MarkOption.triggerChannelFailed now reason msg => WithTriggerChannelFailed now reason msg
  | MarkOption.exchangeFailed now reason msg => WithExchangeFailed now reason msg
  | MarkOption.filterFailed now reason msg => WithFilterFailed now reason msg
  | MarkOption.ingressFailed now reason msg => WithIngressFailed now reason msg
  | MarkOption.triggerChannelReady p now => WithTriggerChannelReady p now
  | MarkOption.filterAvailable p now => WithFilterAvailable p now
  | MarkOption.ingressAvailable p now => WithIngressAvailable p now

/-- The three-valued AND of §8 between the stored aggregate and the stored
dependents of a condition set. -/
def ThreeValuedAnd (cs : ConditionSet) (s : BrokerStatus) : Prop :=
  (storedStatus s cs.aggregateType = some ConditionStatus.True ↔
    ∀ d ∈ cs.dependents, storedStatus s d = some ConditionStatus.True) ∧
  (storedStatus s cs.aggregateType = some ConditionStatus.False ↔
    ∃ d ∈ cs.dependents, storedStatus s d = some ConditionStatus.False) ∧
  (storedStatus s cs.aggregateType = some ConditionStatus.Unknown ↔
    ¬ (∀ d ∈ cs.dependents, storedStatus s d = some ConditionStatus.True) ∧
    ¬ (∃ d ∈ cs.dependents, storedStatus s d = some ConditionStatus.False))

/-- An example Broker whose status has the "Filter" dependent and the aggregate
False, an address, an observed generation and an annotation. -/
def exampleFailedBroker : Broker :=
  { ObjectMeta := { ObjectMeta.zero with Name := "broker", Namespace := "default" },
    Spec := { Config := none },
    Status :=
      { ObservedGeneration := 3,
        Conditions := fun t =>
          if t = "Filter" ∨ t = "Ready" then
            some { type := t, status := ConditionStatus.False, reason := "NoFilter",
                   message := "filter is gone", lastTransitionTime := 7 }
          else none,
        Address :=
          some { Scheme := "http", Opaque := "", User := none, Host := "old.example",
                 Path := "", RawPath := "", ForceQuery := false, RawQuery := "",
                 Fragment := "", RawFragment := "" },
        Annotations := some (StrMap.empty.set "other" "kept") } }

/-- Status, reason and message of condition type `d` as the aggregation reads
them. -/
def depView (s : BrokerStatus) (d : String) : ConditionStatus × String × String :=
  (statusOf s d, reasonOf s d, messageOf s d)

/-- The stored aggregate is the verdict of the aggregation over the stored
dependents, and every type of the set is stored. -/
def AggregateCurrent (cs : ConditionSet) (s : BrokerStatus) : Prop :=
  ConditionsInitialized cs s ∧ depView s cs.aggregateType = aggregateOf cs s

/-- An example Broker right after `WithInitBrokerConditions`: the literal of
`NewBroker` with its conditions initialized at time 0. -/
def exampleInitializedBroker : Broker :=
  WithInitBrokerConditions 0 (newBrokerLiteral "broker" "default")

/-- An example Broker reached from `exampleInitializedBroker` by
`WithTriggerChannelFailed("ChannelGone", "no channel")` at time 1. -/
def exampleChannelFailedBroker : Broker :=
  { exampleInitializedBroker with
    Status :=
      markCondition rabbitBrokerCondSet 1 "TriggerChannel" ConditionStatus.False "ChannelGone"
        "no channel" exampleInitializedBroker.Status }

/-! ## Helper lemmas -/

theorem applyOptions_eq_foldlM (o : List BrokerOption) (b : Broker) :
    applyOptions o b = o.foldlM (fun acc opt => opt acc) b := by
  induction o generalizing b with
  | nil => rfl
  | cons opt rest ih =>
    simp only [applyOptions, List.foldlM_cons]
    cases h : opt b with
    | none => simp [Option.bind]
    | some b1 => simpa [Option.bind] using ih b1

theorem applyOptions_total (fs : List (Broker → Broker)) (b : Broker) :
    applyOptions (fs.map total) b = some (applyAll fs b) := by
  induction fs generalizing b with
  | nil => rfl
  | cons f rest ih =>
    simp only [List.map_cons, applyOptions, total, applyAll, List.foldl_cons]
    simpa [applyAll] using ih (f b)

theorem StrMap.set_comm (m : StrMap) (k1 k2 v1 v2 : String) (h : k1 ≠ k2) :
    (m.set k1 v1).set k2 v2 = (m.set k2 v2).set k1 v1 := by
  funext x
  simp only [StrMap.set]
  by_cases h1 : x = k1
  · by_cases h2 : x = k2
    · exact absurd (h1.symm.trans h2) h
    · simp [h1, h2, h]
  · by_cases h2 : x = k2
    · subst h2
      simp [h1]
    · simp [h1, h2]

theorem StrMap.set_set (m : StrMap) (k v1 v2 : String) :
    (m.set k v1).set k v2 = m.set k v2 := by
  funext x
  simp only [StrMap.set]
  by_cases h1 : x = k <;> simp [h1]

theorem withEntry_comm (m : Option StrMap) (k1 k2 v1 v2 : String) (h : k1 ≠ k2) :
    withEntry (withEntry m k1 v1) k2 v2 = withEntry (withEntry m k2 v2) k1 v1 := by
  cases m <;> simp [withEntry, StrMap.set_comm _ _ _ _ _ h]

theorem withEntry_set (m : Option StrMap) (k v1 v2 : String) :
    withEntry (withEntry m k v1) k v2 = withEntry m k v2 := by
  cases m <;> simp [withEntry, StrMap.set_set]

theorem lookup_withEntry_self (m : Option StrMap) (k v : String) :
    lookup (withEntry m k v) k = some v := by
  cases m <;> simp [withEntry, lookup, StrMap.set]

theorem lookup_withEntry_other (m : Option StrMap) (k v x : String) (h : x ≠ k) :
    lookup (withEntry m k v) x = lookup m x := by
  cases m <;> simp [withEntry, lookup, StrMap.set, StrMap.empty, h]

theorem withEntry_isSome (m : Option StrMap) (k v : String) :
    (withEntry m k v).isSome = true := by
  cases m <;> simp [withEntry]

theorem foldl_initializeCondition (now : Time) (ts : List String) (s : BrokerStatus) :
    ts.foldl (initializeCondition now) s =
      { s with
        Conditions := fun k =>
          match s.Conditions k with
          | some c => some c
          | none =>
            if k ∈ ts then
              some { type := k, status := ConditionStatus.Unknown, reason := "", message := "",
                     lastTransitionTime := now }
            else none } := by
  induction ts generalizing s with
  | nil =>
    cases s with
    | mk g c a n =>
      simp only [List.foldl_nil, List.not_mem_nil, if_false]
      congr 1
      funext k
      cases c k <;> rfl
  | cons t rest ih =>
    rw [List.foldl_cons, ih]
    cases s with
    | mk g c a n =>
      cases ht : c t with
      | some c0 =>
        simp only [initializeCondition, ht]
        congr 1
        funext k
        cases hk : c k with
        | some ck => rfl
        | none =>
          have hkt : k ≠ t := by
            intro h
            rw [h, ht] at hk
            cases hk
          simp [hkt]
      | none =>
        simp only [initializeCondition, ht, setCondition]
        congr 1
        funext k
        by_cases hkt : k = t
        · subst hkt
          simp [ht]
        · cases hk : c k <;> simp [hkt]

theorem InitializeConditions_idempotent (cs : ConditionSet) (t1 t2 : Time) (s : BrokerStatus) :
    InitializeConditions cs t2 (InitializeConditions cs t1 s) = InitializeConditions cs t1 s := by
  simp only [InitializeConditions, foldl_initializeCondition]
  cases s with
  | mk g c a n =>
    congr 1
    funext k
    cases hk : c k with
    | some ck => simp [hk]
    | none =>
      by_cases hm : k ∈ cs.dependents ++ [cs.aggregateType] <;> simp [hk, hm]

theorem depView_setCondition (now : Time) (t : String) (st : ConditionStatus)
    (reason message : String) (s : BrokerStatus) (d : String) :
    depView (setCondition now t st reason message s) d =
      if d = t then (st, reason, message) else depView s d := by
  by_cases h : d = t <;> simp [depView, statusOf, reasonOf, messageOf, setCondition, h]

theorem find?_congr_on {α : Type} (l : List α) (p q : α → Bool)
    (h : ∀ x ∈ l, p x = q x) : l.find? p = l.find? q := by
  induction l with
  | nil => rfl
  | cons a rest ih =>
    have ha : p a = q a := h a (List.mem_cons_self a rest)
    have hrest : ∀ x ∈ rest, p x = q x := fun x hx => h x (List.mem_cons_of_mem a hx)
    simp only [List.find?_cons, ha, ih hrest]

theorem aggregateOf_congr (cs : ConditionSet) (s1 s2 : BrokerStatus)
    (h : ∀ d ∈ cs.dependents, depView s1 d = depView s2 d) :
    aggregateOf cs s1 = aggregateOf cs s2 := by
  have hs : ∀ d ∈ cs.dependents, statusOf s1 d = statusOf s2 d := fun d hd =>
    congrArg Prod.fst (h d hd)
  have hr : ∀ d ∈ cs.dependents, reasonOf s1 d = reasonOf s2 d := fun d hd =>
    congrArg (fun v => v.2.1) (h d hd)
  have hm : ∀ d ∈ cs.dependents, messageOf s1 d = messageOf s2 d := fun d hd =>
    congrArg (fun v => v.2.2) (h d hd)
  have hf : ∀ st : ConditionStatus,
      cs.dependents.find? (fun t => statusOf s1 t = st) =
        cs.dependents.find? (fun t => statusOf s2 t = st) := by
    intro st
    apply find?_congr_on
    intro d hd
    simp [hs d hd]
  unfold aggregateOf
  rw [hf ConditionStatus.False, hf ConditionStatus.Unknown]
  cases h1 : cs.dependents.find? (fun t => statusOf s2 t = ConditionStatus.False) with
  | some t =>
    have ht := List.mem_of_find?_eq_some h1
    simp [hr t ht, hm t ht]
  | none =>
    cases h2 : cs.dependents.find? (fun t => statusOf s2 t = ConditionStatus.Unknown) with
    | some t =>
      have ht := List.mem_of_find?_eq_some h2
      simp [hr t ht, hm t ht]
    | none => rfl

theorem depView_recomputeAggregate_ne (cs : ConditionSet) (now : Time) (s : BrokerStatus)
    (d : String) (h : d ≠ cs.aggregateType) :
    depView (recomputeAggregate cs now s) d = depView s d := by
  simp [recomputeAggregate, depView_setCondition, h]

theorem depView_recomputeAggregate_self (cs : ConditionSet) (now : Time) (s : BrokerStatus) :
    depView (recomputeAggregate cs now s) cs.aggregateType = aggregateOf cs s := by
  simp [recomputeAggregate, depView_setCondition]

theorem ne_aggregate_of_mem (cs : ConditionSet) (hagg : cs.aggregateType ∉ cs.dependents)
    (d : String) (hd : d ∈ cs.dependents) : d ≠ cs.aggregateType := by
  intro h
  exact hagg (h ▸ hd)

theorem depView_markCondition (cs : ConditionSet) (hagg : cs.aggregateType ∉ cs.dependents)
    (now : Time) (t : String) (st : ConditionStatus) (reason message : String)
    (s : BrokerStatus) (d : String) (hd : d ∈ cs.dependents) :
    depView (markCondition cs now t st reason message s) d =
      if d = t then (st, reason, message) else depView s d := by
  rw [markCondition, depView_recomputeAggregate_ne _ _ _ _ (ne_aggregate_of_mem cs hagg d hd),
    depView_setCondition]

theorem depView_markCondition_aggregate (cs : ConditionSet)
    (hagg : cs.aggregateType ∉ cs.dependents) (now : Time) (t : String) (st : ConditionStatus)
    (reason message : String) (s : BrokerStatus) :
    depView (markCondition cs now t st reason message s) cs.aggregateType =
      aggregateOf cs (markCondition cs now t st reason message s) := by
  rw [markCondition, depView_recomputeAggregate_self]
  apply aggregateOf_congr
  intro d hd
  rw [depView_recomputeAggregate_ne _ _ _ _ (ne_aggregate_of_mem cs hagg d hd)]

theorem rabbit_aggregate_not_dependent :
    rabbitBrokerCondSet.aggregateType ∉ rabbitBrokerCondSet.dependents := by
  decide

theorem aggregateOf_of_find_false (cs : ConditionSet) (s : BrokerStatus) (d : String)
    (h : cs.dependents.find? (fun t => statusOf s t = ConditionStatus.False) = some d) :
    aggregateOf cs s = (ConditionStatus.False, reasonOf s d, messageOf s d) := by
  simp [aggregateOf, h]

theorem find_false_of_mem (cs : ConditionSet) (s : BrokerStatus) (d : String)
    (hd : d ∈ cs.dependents) (h : statusOf s d = ConditionStatus.False) :
    ∃ d1, cs.dependents.find? (fun t => statusOf s t = ConditionStatus.False) = some d1 := by
  cases hf : cs.dependents.find? (fun t => statusOf s t = ConditionStatus.False) with
  | some d1 => exact ⟨d1, rfl⟩
  | none =>
    rw [List.find?_eq_none] at hf
    have := hf d hd
    simp [h] at this

theorem two_marks_view (cs : ConditionSet) (hagg : cs.aggregateType ∉ cs.dependents)
    (s : BrokerStatus) (t1 t2 : Time) (d1 d2 : String) (st1 st2 : ConditionStatus)
    (r1 m1 r2 m2 : String) (d : String) (hd : d ∈ cs.dependents) :
    depView (markCondition cs t2 d2 st2 r2 m2 (markCondition cs t1 d1 st1 r1 m1 s)) d =
      if d = d2 then (st2, r2, m2) else if d = d1 then (st1, r1, m1) else depView s d := by
  rw [depView_markCondition cs hagg _ _ _ _ _ _ d hd,
    depView_markCondition cs hagg _ _ _ _ _ _ d hd]

theorem FailedOption.dependent_mem (o : FailedOption) :
    o.dependent ∈ rabbitBrokerCondSet.dependents := by
  cases o <;> decide

theorem FailedOption.dependent_injective (o1 o2 : FailedOption)
    (h : o1.dependent = o2.dependent) : o1 = o2 := by
  cases o1 <;> cases o2 <;> first | rfl | (exact absurd h (by decide))

theorem FailedOption.run_eq (o : FailedOption) (now : Time) (reason msg : String) (b : Broker) :
    o.run now reason msg b =
      some { b with
        Status :=
          markCondition rabbitBrokerCondSet now o.dependent ConditionStatus.False reason msg
            b.Status } := by
  cases o <;>
    simp [FailedOption.run, FailedOption.dependent, WithTriggerChannelFailed, WithExchangeFailed,
      WithFilterFailed, WithIngressFailed, MarkTriggerChannelFailed, MarkExchangeFailed,
      MarkFilterFailed, MarkIngressFailed, MarkFalse, rabbitBrokerCondSet]

theorem FailedOption.position_values :
    FailedOption.triggerChannel.position = 0 ∧ FailedOption.exchange.position = 1 ∧
      FailedOption.filter.position = 2 ∧ FailedOption.ingress.position = 3 := by
  decide

theorem aggregateOf_fst_eq_false_iff (cs : ConditionSet) (s : BrokerStatus) :
    (aggregateOf cs s).1 = ConditionStatus.False ↔
      ∃ d ∈ cs.dependents, statusOf s d = ConditionStatus.False := by
  unfold aggregateOf
  cases h1 : cs.dependents.find? (fun t => statusOf s t = ConditionStatus.False) with
  | some t =>
    have hp := List.find?_some h1
    simp only [decide_eq_true_eq] at hp
    simp only [true_iff]
    exact ⟨t, List.mem_of_find?_eq_some h1, hp⟩
  | none =>
    rw [List.find?_eq_none] at h1
    have hno : ¬ ∃ d ∈ cs.dependents, statusOf s d = ConditionStatus.False := by
      rintro ⟨d, hd, hs⟩
      have := h1 d hd
      simp [hs] at this
    cases h2 : cs.dependents.find? (fun t => statusOf s t = ConditionStatus.Unknown) <;>
      simp [hno]

theorem aggregateOf_fst_eq_true_iff (cs : ConditionSet) (s : BrokerStatus) :
    (aggregateOf cs s).1 = ConditionStatus.True ↔
      ∀ d ∈ cs.dependents, statusOf s d = ConditionStatus.True := by
  unfold aggregateOf
  cases h1 : cs.dependents.find? (fun t => statusOf s t = ConditionStatus.False) with
  | some t =>
    have hp := List.find?_some h1
    simp only [decide_eq_true_eq] at hp
    have hm := List.mem_of_find?_eq_some h1
    constructor
    · intro h
      cases h
    · intro h
      have := h t hm
      rw [hp] at this
      cases this
  | none =>
    rw [List.find?_eq_none] at h1
    cases h2 : cs.dependents.find? (fun t => statusOf s t = ConditionStatus.Unknown) with
    | some t =>
      have hp := List.find?_some h2
      simp only [decide_eq_true_eq] at hp
      have hm := List.mem_of_find?_eq_some h2
      constructor
      · intro h
        cases h
      · intro h
        have := h t hm
        rw [hp] at this
        cases this
    | none =>
      rw [List.find?_eq_none] at h2
      simp only [true_iff]
      intro d hd
      have n1 := h1 d hd
      have n2 := h2 d hd
      simp only [decide_eq_true_eq] at n1 n2
      cases hst : statusOf s d with
      | True => rfl
      | False => exact absurd hst n1
      | Unknown => exact absurd hst n2

theorem storedStatus_eq_of_isSome (s : BrokerStatus) (t : String)
    (h : (s.Conditions t).isSome = true) : storedStatus s t = some (statusOf s t) := by
  unfold storedStatus statusOf
  cases hc : s.Conditions t with
  | some c => rfl
  | none => simp [hc] at h

theorem ThreeValuedAnd_of_current (cs : ConditionSet) (s : BrokerStatus)
    (h : AggregateCurrent cs s) : ThreeValuedAnd cs s := by
  obtain ⟨hinit, hagg⟩ := h
  have hst : statusOf s cs.aggregateType = (aggregateOf cs s).1 := congrArg Prod.fst hagg
  have hsa : storedStatus s cs.aggregateType = some (aggregateOf cs s).1 := by
    rw [storedStatus_eq_of_isSome s _ (hinit _ (by simp)), hst]
  have hsd : ∀ d ∈ cs.dependents, storedStatus s d = some (statusOf s d) := fun d hd =>
    storedStatus_eq_of_isSome s d (hinit d (by simp [hd]))
  have htrue : (∀ d ∈ cs.dependents, storedStatus s d = some ConditionStatus.True) ↔
      ∀ d ∈ cs.dependents, statusOf s d = ConditionStatus.True := by
    constructor
    · intro h d hd
      have := h d hd
      rw [hsd d hd] at this
      exact Option.some.inj this
    · intro h d hd
      rw [hsd d hd, h d hd]
  have hfalse : (∃ d ∈ cs.dependents, storedStatus s d = some ConditionStatus.False) ↔
      ∃ d ∈ cs.dependents, statusOf s d = ConditionStatus.False := by
    constructor
    · rintro ⟨d, hd, h⟩
      rw [hsd d hd] at h
      exact ⟨d, hd, Option.some.inj h⟩
    · rintro ⟨d, hd, h⟩
      exact ⟨d, hd, by rw [hsd d hd, h]⟩
  unfold ThreeValuedAnd
  rw [hsa, htrue, hfalse, ← aggregateOf_fst_eq_true_iff, ← aggregateOf_fst_eq_false_iff]
  simp only [Option.some.injEq]
  cases (aggregateOf cs s).1 <;> simp

theorem setCondition_isSome (now : Time) (t : String) (st : ConditionStatus)
    (reason message : String) (s : BrokerStatus) (k : String)
    (h : (s.Conditions k).isSome = true) :
    ((setCondition now t st reason message s).Conditions k).isSome = true := by
  by_cases hk : k = t <;> simp [setCondition, hk, h]

theorem markCondition_initialized (cs : ConditionSet) (now : Time) (t : String)
    (st : ConditionStatus) (reason message : String) (s : BrokerStatus)
    (h : ConditionsInitialized cs s) :
    ConditionsInitialized cs (markCondition cs now t st reason message s) := by
  intro k hk
  exact setCondition_isSome _ _ _ _ _ _ k (setCondition_isSome _ _ _ _ _ _ k (h k hk))

theorem markCondition_current (cs : ConditionSet) (hagg : cs.aggregateType ∉ cs.dependents)
    (now : Time) (t : String) (st : ConditionStatus) (reason message : String)
    (s : BrokerStatus) (h : ConditionsInitialized cs s) :
    AggregateCurrent cs (markCondition cs now t st reason message s) :=
  ⟨markCondition_initialized cs now t st reason message s h,
    depView_markCondition_aggregate cs hagg now t st reason message s⟩

theorem AggregateCurrent_of_conditions_eq (cs : ConditionSet) (s1 s2 : BrokerStatus)
    (h : s2.Conditions = s1.Conditions) (h1 : AggregateCurrent cs s1) :
    AggregateCurrent cs s2 := by
  cases s1 with
  | mk g1 c1 a1 n1 =>
    cases s2 with
    | mk g2 c2 a2 n2 =>
      simp only at h
      subst h
      exact h1

theorem MarkOption.run_current (o : MarkOption) (b : Broker)
    (hb : ConditionsInitialized rabbitBrokerCondSet b.Status) :
    ∃ b1 : Broker, o.run b = some b1 ∧ AggregateCurrent rabbitBrokerCondSet b1.Status := by
  have hagg := rabbit_aggregate_not_dependent
  have hm := fun now t st reason message =>
    markCondition_current rabbitBrokerCondSet hagg now t st reason message b.Status hb
  have h1 : "TriggerChannel" ∈ rabbitBrokerCondSet.dependents := by decide
  have h2 : "Exchange" ∈ rabbitBrokerCondSet.dependents := by decide
  have h3 : "Filter" ∈ rabbitBrokerCondSet.dependents := by decide
  have h4 : "Ingress" ∈ rabbitBrokerCondSet.dependents := by decide
  cases o with
  | triggerChannelFailed now reason msg =>
    refine ⟨{ b with Status := (markCondition rabbitBrokerCondSet now "TriggerChannel" ConditionStatus.False reason msg b.Status) }, ?_, ?_⟩
    · simp [MarkOption.run, WithTriggerChannelFailed, MarkTriggerChannelFailed, MarkFalse, h1]
    · exact hm now "TriggerChannel" ConditionStatus.False reason msg
  | exchangeFailed now reason msg =>
    refine ⟨{ b with Status := (markCondition rabbitBrokerCondSet now "Exchange" ConditionStatus.False reason msg b.Status) }, ?_, ?_⟩
    · simp [MarkOption.run, WithExchangeFailed, MarkExchangeFailed, MarkFalse, h2]
    · exact hm now "Exchange" ConditionStatus.False reason msg
  | filterFailed now reason msg =>
    refine ⟨{ b with Status := (markCondition rabbitBrokerCondSet now "Filter" ConditionStatus.False reason msg b.Status) }, ?_, ?_⟩
    · simp [MarkOption.run, WithFilterFailed, MarkFilterFailed, MarkFalse, h3]
    · exact hm now "Filter" ConditionStatus.False reason msg
  | ingressFailed now reason msg =>
    refine ⟨{ b with Status := (markCondition rabbitBrokerCondSet now "Ingress" ConditionStatus.False reason msg b.Status) }, ?_, ?_⟩
    · simp [MarkOption.run, WithIngressFailed, MarkIngressFailed, MarkFalse, h4]
    · exact hm now "Ingress" ConditionStatus.False reason msg
  | triggerChannelReady p now =>
    cases p with
    | ready address =>
      refine ⟨{ b with Status := (SetAddress (some address) (markCondition rabbitBrokerCondSet now "TriggerChannel" ConditionStatus.True "" "" b.Status)) }, ?_, ?_⟩
      · simp [MarkOption.run, WithTriggerChannelReady, PropagateTriggerChannelReadiness,
        PropagateChannelReadiness, MarkTrue, h1]
      · exact AggregateCurrent_of_conditions_eq _ _ _ rfl (hm now "TriggerChannel" ConditionStatus.True "" "")
    | notReady reason message =>
      refine ⟨{ b with Status := (markCondition rabbitBrokerCondSet now "TriggerChannel" ConditionStatus.False reason message b.Status) }, ?_, ?_⟩
      · simp [MarkOption.run, WithTriggerChannelReady, PropagateTriggerChannelReadiness,
        PropagateChannelReadiness, MarkFalse, h1]
      · exact hm now "TriggerChannel" ConditionStatus.False reason message
    | indeterminate reason message =>
      refine ⟨{ b with Status := (markCondition rabbitBrokerCondSet now "TriggerChannel" ConditionStatus.Unknown reason message b.Status) }, ?_, ?_⟩
      · simp [MarkOption.run, WithTriggerChannelReady, PropagateTriggerChannelReadiness,
        PropagateChannelReadiness, MarkUnknown, h1]
      · exact hm now "TriggerChannel" ConditionStatus.Unknown reason message
  | filterAvailable p now =>
    cases p with
    | allAvailable =>
      refine ⟨{ b with Status := (markCondition rabbitBrokerCondSet now "Filter" ConditionStatus.True "" "" b.Status) }, ?_, ?_⟩
      · simp [MarkOption.run, WithFilterAvailable, PropagateFilterAvailability,
        PropagateAvailability, MarkTrue, h3]
      · exact hm now "Filter" ConditionStatus.True "" ""
    | noneAvailable message =>
      refine ⟨{ b with Status := (markCondition rabbitBrokerCondSet now "Filter" ConditionStatus.False "Unavailable" message b.Status) }, ?_, ?_⟩
      · simp [MarkOption.run, WithFilterAvailable, PropagateFilterAvailability,
        PropagateAvailability, MarkFalse, h3]
      · exact hm now "Filter" ConditionStatus.False "Unavailable" message
    | indeterminate reason message =>
      refine ⟨{ b with Status := (markCondition rabbitBrokerCondSet now "Filter" ConditionStatus.Unknown reason message b.Status) }, ?_, ?_⟩
      · simp [MarkOption.run, WithFilterAvailable, PropagateFilterAvailability,
        PropagateAvailability, MarkUnknown, h3]
      · exact hm now "Filter" ConditionStatus.Unknown reason message
  | ingressAvailable p now =>
    cases p with
    | allAvailable =>
      refine ⟨{ b with Status := (markCondition rabbitBrokerCondSet now "Ingress" ConditionStatus.True "" "" b.Status) }, ?_, ?_⟩
      · simp [MarkOption.run, WithIngressAvailable, PropagateIngressAvailability,
        PropagateAvailability, MarkTrue, h4]
      · exact hm now "Ingress" ConditionStatus.True "" ""
    | noneAvailable message =>
      refine ⟨{ b with Status := (markCondition rabbitBrokerCondSet now "Ingress" ConditionStatus.False "Unavailable" message b.Status) }, ?_, ?_⟩
      · simp [MarkOption.run, WithIngressAvailable, PropagateIngressAvailability,
        PropagateAvailability, MarkFalse, h4]
      · exact hm now "Ingress" ConditionStatus.False "Unavailable" message
    | indeterminate reason message =>
      refine ⟨{ b with Status := (markCondition rabbitBrokerCondSet now "Ingress" ConditionStatus.Unknown reason message b.Status) }, ?_, ?_⟩
      · simp [MarkOption.run, WithIngressAvailable, PropagateIngressAvailability,
        PropagateAvailability, MarkUnknown, h4]
      · exact hm now "Ingress" ConditionStatus.Unknown reason message

theorem applyOptions_marks_current (seq : List MarkOption) (b : Broker)
    (hb : AggregateCurrent rabbitBrokerCondSet b.Status) :
    ∃ b1 : Broker, applyOptions (seq.map MarkOption.run) b = some b1 ∧
      AggregateCurrent rabbitBrokerCondSet b1.Status := by
  induction seq generalizing b with
  | nil => exact ⟨b, rfl, hb⟩
  | cons o rest ih =>
    obtain ⟨b1, h1, hc1⟩ := MarkOption.run_current o b hb.1
    obtain ⟨b2, h2, hc2⟩ := ih b1 hc1
    exact ⟨b2, by simp [applyOptions, h1, h2], hc2⟩

theorem WithInitBrokerConditions_current (now : Time) (b : Broker)
    (hb : b.Status.Conditions = fun _ => none) :
    AggregateCurrent rabbitBrokerCondSet (WithInitBrokerConditions now b).Status := by
  simp only [WithInitBrokerConditions, InitializeConditions, foldl_initializeCondition, hb]
  constructor
  · intro t ht
    simp only [ht, if_true, Option.isSome_some]
  · simp [depView, aggregateOf, statusOf, reasonOf, messageOf, rabbitBrokerCondSet, List.find?]

theorem WithInitBrokerConditions_initialized (now : Time) (b : Broker) :
    ConditionsInitialized rabbitBrokerCondSet (WithInitBrokerConditions now b).Status := by
  intro t ht
  simp only [WithInitBrokerConditions, InitializeConditions, foldl_initializeCondition]
  cases hc : b.Status.Conditions t with
  | some c => simp [hc]
  | none => simp [hc, ht]

/-! ## Theorems -/

/-- C1: `NewBroker` returns the Broker obtained from the literal with only Name
and Namespace set by applying the options left to right, each once, and then
`SetDefaults` once; a panicking option makes the whole call panic; with no
options the result is `SetDefaults` of the literal. -/
theorem NewBroker_applies_options_then_defaults (SetDefaults : Broker → Broker)
    (name ns : String) :
    (∀ o : List BrokerOption,
      NewBroker SetDefaults name ns o =
        Option.map SetDefaults
          (List.foldlM (fun (acc : Broker) (opt : BrokerOption) => opt acc)
            (newBrokerLiteral name ns) o)) ∧
    (∀ fs : List (Broker → Broker),
      NewBroker SetDefaults name ns (fs.map total) =
        some (SetDefaults (fs.foldl (fun acc f => f acc) (newBrokerLiteral name ns)))) ∧
    NewBroker SetDefaults name ns [] = some (SetDefaults (newBrokerLiteral name ns)) ∧
    newBrokerLiteral name ns =
      { ObjectMeta :=
          { Name := name, Namespace := ns, Generation := 0, ResourceVersion := "",
            Finalizers := [], DeletionTimestamp := none, Annotations := none },
        Spec := { Config := none },
        Status :=
          { ObservedGeneration := 0, Conditions := fun _ => none, Address := none,
            Annotations := none } } := by
  refine ⟨?_, ?_, rfl, rfl⟩
  · intro o
    simp only [NewBroker, applyOptions_eq_foldlM]
    cases List.foldlM (fun (acc : Broker) (opt : BrokerOption) => opt acc)
      (newBrokerLiteral name ns) o <;> rfl
  · intro fs
    simp only [NewBroker, applyOptions_total]
    rfl

/-- C7: `WithBrokerAddress(address)` overwrites the resolved address whatever
it was: afterwards the status address is the URL with Scheme "http", Host
`address` and every other component empty, and the Broker is the one
`WithBrokerAddressURI` gives for that URL. -/
theorem WithBrokerAddress_overwrites_address (address : String) (b : Broker) :
    (WithBrokerAddress address b).Status.Address =
      some { Scheme := "http", Opaque := "", User := none, Host := address, Path := "",
             RawPath := "", ForceQuery := false, RawQuery := "", Fragment := "",
             RawFragment := "" } ∧
    WithBrokerAddress address b =
      WithBrokerAddressURI
        (some { Scheme := "http", Opaque := "", User := none, Host := address, Path := "",
                RawPath := "", ForceQuery := false, RawQuery := "", Fragment := "",
                RawFragment := "" }) b ∧
    (∀ uri : Option URL, (WithBrokerAddressURI uri b).Status.Address = uri) :=
  ⟨rfl, rfl, fun _ => rfl⟩

/-- C9: `WithBrokerClass(bc)` leaves `bc` under the class key of the metadata
annotations and every other metadata annotation as it was, also when there were
none; Spec and Status (with `Status.Annotations`) are untouched; a second
`WithBrokerClass` overrides the first. -/
theorem WithBrokerClass_sets_class (k : AnnotationKeys) (bc : String) (b : Broker) :
    lookup (WithBrokerClass k bc b).ObjectMeta.Annotations k.ClassAnnotationKey = some bc ∧
    (∀ x : String, x ≠ k.ClassAnnotationKey →
      lookup (WithBrokerClass k bc b).ObjectMeta.Annotations x =
        lookup b.ObjectMeta.Annotations x) ∧
    (WithBrokerClass k bc b).ObjectMeta.Annotations.isSome = true ∧
    (WithBrokerClass k bc b).Status = b.Status ∧
    (WithBrokerClass k bc b).Spec = b.Spec ∧
    (∀ bc1 : String, WithBrokerClass k bc (WithBrokerClass k bc1 b) = WithBrokerClass k bc b) := by
  refine ⟨lookup_withEntry_self _ _ _, fun x hx => lookup_withEntry_other _ _ _ x hx,
    withEntry_isSome _ _ _, rfl, rfl, ?_⟩
  intro bc1
  simp [WithBrokerClass, withEntry_set]

/-- C8: each of the four channel options writes its value under its own key of
`Status.Annotations`, keeps every other key, creates the map when it was absent
and changes no other field; with pairwise different keys the four values
written one after another can all be read back. -/
theorem channel_options_write_their_key (k : AnnotationKeys) (hk : k.ChannelKeysDistinct)
    (address apiVersion kind name : String) :
    WritesStatusKey ( WithChannelAddressAnnotation k address)
      k.BrokerChannelAddressStatusAnnotationKey address ∧
    WritesStatusKey ( WithChannelAPIVersionAnnotation k apiVersion)
      k.BrokerChannelAPIVersionStatusAnnotationKey apiVersion ∧
    WritesStatusKey ( WithChannelKindAnnotation k kind)
      k.BrokerChannelKindStatusAnnotationKey kind ∧
    WritesStatusKey ( WithChannelNameAnnotation k name)
      k.BrokerChannelNameStatusAnnotationKey name ∧
    (∀ b : Broker,
      lookup
          (applyAll
            [ WithChannelAddressAnnotation k address, WithChannelAPIVersionAnnotation k apiVersion,
              WithChannelKindAnnotation k kind, WithChannelNameAnnotation k name] b).Status.Annotations
          k.BrokerChannelAddressStatusAnnotationKey = some address ∧
      lookup
          (applyAll
            [ WithChannelAddressAnnotation k address, WithChannelAPIVersionAnnotation k apiVersion,
              WithChannelKindAnnotation k kind, WithChannelNameAnnotation k name] b).Status.Annotations
          k.BrokerChannelAPIVersionStatusAnnotationKey = some apiVersion ∧
      lookup
          (applyAll
            [ WithChannelAddressAnnotation k address, WithChannelAPIVersionAnnotation k apiVersion,
              WithChannelKindAnnotation k kind, WithChannelNameAnnotation k name] b).Status.Annotations
          k.BrokerChannelKindStatusAnnotationKey = some kind ∧
      lookup
          (applyAll
            [ WithChannelAddressAnnotation k address, WithChannelAPIVersionAnnotation k apiVersion,
              WithChannelKindAnnotation k kind, WithChannelNameAnnotation k name] b).Status.Annotations
          k.BrokerChannelNameStatusAnnotationKey = some name) := by
  have writes : ∀ (key v : String),
      WritesStatusKey
        (fun b => { b with Status := { b.Status with
          Annotations := withEntry b.Status.Annotations key v } }) key v := by
    intro key v b
    exact ⟨lookup_withEntry_self _ _ _, fun x hx => lookup_withEntry_other _ _ _ x hx,
      withEntry_isSome _ _ _, rfl, rfl, rfl, rfl, rfl⟩
  refine ⟨writes _ _, writes _ _, writes _ _, writes _ _, ?_⟩
  intro b
  simp only [AnnotationKeys.ChannelKeysDistinct, List.nodup_cons, List.mem_cons,
    List.mem_singleton, not_or, List.not_mem_nil, not_false_eq_true, List.nodup_nil,
    and_true] at hk
  obtain ⟨⟨h12, h13, h14⟩, ⟨h23, h24⟩, h34⟩ := hk
  simp only [applyAll, List.foldl_cons, List.foldl_nil, WithChannelAddressAnnotation,
    WithChannelAPIVersionAnnotation, WithChannelKindAnnotation, WithChannelNameAnnotation]
  refine ⟨?_, ?_, ?_, ?_⟩
  · rw [lookup_withEntry_other _ _ _ _ h14, lookup_withEntry_other _ _ _ _ h13,
      lookup_withEntry_other _ _ _ _ h12, lookup_withEntry_self]
  · rw [lookup_withEntry_other _ _ _ _ h24, lookup_withEntry_other _ _ _ _ h23,
      lookup_withEntry_self]
  · rw [lookup_withEntry_other _ _ _ _ h34, lookup_withEntry_self]
  · rw [lookup_withEntry_self]

/-- Witness of C8: with the example keys, the kind written by the four options
on a Broker that already had annotations is read back. -/
theorem channel_options_write_their_key_witness :
    exampleKeys.ChannelKeysDistinct ∧
    lookup
        (applyAll
          [ WithChannelAddressAnnotation exampleKeys "http://ch", WithChannelAPIVersionAnnotation
              exampleKeys "v1", WithChannelKindAnnotation exampleKeys "Channel",
            WithChannelNameAnnotation exampleKeys "ch"] exampleFailedBroker).Status.Annotations
        exampleKeys.BrokerChannelKindStatusAnnotationKey = some "Channel" :=
  ⟨by decide,
    ((channel_options_write_their_key exampleKeys (by decide) "http://ch" "v1" "Channel"
      "ch").2.2.2.2 exampleFailedBroker).2.2.1⟩

/-- C10: with pairwise different keys, the four channel options applied in any
order (any permutation of the four) give the same Broker, and each of them
applied twice with the same value gives the same Broker as applied once. -/
theorem channel_options_order_independent (k : AnnotationKeys) (hk : k.ChannelKeysDistinct)
    (address apiVersion kind name : String) (b : Broker) :
    (∀ l : List (Broker → Broker),
      l.Perm
          [ WithChannelAddressAnnotation k address, WithChannelAPIVersionAnnotation k apiVersion,
            WithChannelKindAnnotation k kind, WithChannelNameAnnotation k name] →
        applyAll l b =
          applyAll
            [ WithChannelAddressAnnotation k address, WithChannelAPIVersionAnnotation k apiVersion,
              WithChannelKindAnnotation k kind, WithChannelNameAnnotation k name] b) ∧
    WithChannelAddressAnnotation k address ( WithChannelAddressAnnotation k address b) =
      WithChannelAddressAnnotation k address b ∧
    WithChannelAPIVersionAnnotation k apiVersion ( WithChannelAPIVersionAnnotation k apiVersion b) =
      WithChannelAPIVersionAnnotation k apiVersion b ∧
    WithChannelKindAnnotation k kind ( WithChannelKindAnnotation k kind b) =
      WithChannelKindAnnotation k kind b ∧
    WithChannelNameAnnotation k name ( WithChannelNameAnnotation k name b) =
      WithChannelNameAnnotation k name b := by
  simp only [AnnotationKeys.ChannelKeysDistinct, List.nodup_cons, List.mem_cons,
    List.mem_singleton, not_or, List.not_mem_nil, not_false_eq_true, List.nodup_nil,
    and_true] at hk
  obtain ⟨⟨h12, h13, h14⟩, ⟨h23, h24⟩, h34⟩ := hk
  refine ⟨?_, ?_, ?_, ?_, ?_⟩
  · intro l hl
    refine (List.Perm.foldl_eq' hl.symm ?_ b).symm
    intro x hx y hy z
    simp only [List.mem_cons, List.mem_singleton, List.not_mem_nil, or_false] at hx hy
    rcases hx with rfl | rfl | rfl | rfl <;> rcases hy with rfl | rfl | rfl | rfl <;>
      first
        | rfl
        | simp only [ WithChannelAddressAnnotation, WithChannelAPIVersionAnnotation,
            WithChannelKindAnnotation, WithChannelNameAnnotation,
            withEntry_comm _ _ _ _ _ h12, withEntry_comm _ _ _ _ _ h13,
            withEntry_comm _ _ _ _ _ h14, withEntry_comm _ _ _ _ _ h23,
            withEntry_comm _ _ _ _ _ h24, withEntry_comm _ _ _ _ _ h34]
  · simp [withEntry_set, WithChannelAddressAnnotation]
  · simp [withEntry_set, WithChannelAPIVersionAnnotation]
  · simp [withEntry_set, WithChannelKindAnnotation]
  · simp [withEntry_set, WithChannelNameAnnotation]

/-- Witness of C10: with the example keys, the four options in reverse order
give the same Broker as in the order of the file. -/
theorem channel_options_order_independent_witness :
    exampleKeys.ChannelKeysDistinct ∧
    applyAll
        [ WithChannelNameAnnotation exampleKeys "ch", WithChannelKindAnnotation exampleKeys "Channel",
          WithChannelAPIVersionAnnotation exampleKeys "v1",
          WithChannelAddressAnnotation exampleKeys "http://ch"] exampleFailedBroker =
      applyAll
        [ WithChannelAddressAnnotation exampleKeys "http://ch", WithChannelAPIVersionAnnotation
            exampleKeys "v1", WithChannelKindAnnotation exampleKeys "Channel",
          WithChannelNameAnnotation exampleKeys "ch"] exampleFailedBroker :=
  ⟨by decide,
    (channel_options_order_independent exampleKeys (by decide) "http://ch" "v1" "Channel" "ch"
      exampleFailedBroker).1 _
      (List.reverse_perm
        [ WithChannelAddressAnnotation exampleKeys "http://ch", WithChannelAPIVersionAnnotation
            exampleKeys "v1", WithChannelKindAnnotation exampleKeys "Channel",
          WithChannelNameAnnotation exampleKeys "ch"])⟩

/-- C6: applying `WithInitBrokerConditions` twice in a row, at whatever times,
gives the Broker that applying it once gives. -/
theorem WithInitBrokerConditions_idempotent (t1 t2 : Time) (b : Broker) :
    WithInitBrokerConditions t2 (WithInitBrokerConditions t1 b) =
      WithInitBrokerConditions t1 b := by
  simp only [WithInitBrokerConditions, InitializeConditions_idempotent]

/-- C2, as amended: on every Broker, marking two distinct dependents failed,
with reasons A and B, gives in either order of the two options a Ready
condition that is False and carries the same reason: the reason of the first
dependent in declared order that is False; when no dependent declared before
both of the two is False in the Broker, that is the reason of whichever of the
two is declared first. -/
theorem failed_dependents_attribution (b : Broker) (o1 o2 : FailedOption) (hne : o1 ≠ o2)
    (A B mA mB : String) (t1 t2 t3 t4 : Time) :
    ∃ x y : Broker,
      applyOptions [o1.run t1 A mA, o2.run t2 B mB] b = some x ∧
      applyOptions [o2.run t3 B mB, o1.run t4 A mA] b = some y ∧
      statusOf x.Status "Ready" = ConditionStatus.False ∧
      statusOf y.Status "Ready" = ConditionStatus.False ∧
      reasonOf x.Status "Ready" = reasonOf y.Status "Ready" ∧
      (∃ d : String,
        rabbitBrokerCondSet.dependents.find?
            (fun t => statusOf x.Status t = ConditionStatus.False) = some d ∧
        rabbitBrokerCondSet.dependents.find?
            (fun t => statusOf y.Status t = ConditionStatus.False) = some d ∧
        reasonOf x.Status "Ready" = reasonOf x.Status d ∧
        reasonOf y.Status "Ready" = reasonOf y.Status d) ∧
      ((∀ o : FailedOption, o.position < o1.position → o.position < o2.position →
          statusOf b.Status o.dependent ≠ ConditionStatus.False) →
        reasonOf x.Status "Ready" = if o1.position < o2.position then A else B) := by
  have hagg := rabbit_aggregate_not_dependent
  have hd12 : o1.dependent ≠ o2.dependent := fun h => hne (FailedOption.dependent_injective _ _ h)
  have hx := two_marks_view rabbitBrokerCondSet hagg b.Status t1 t2 o1.dependent o2.dependent
    ConditionStatus.False ConditionStatus.False A mA B mB
  have hy := two_marks_view rabbitBrokerCondSet hagg b.Status t3 t4 o2.dependent o1.dependent
    ConditionStatus.False ConditionStatus.False B mB A mA
  have hxa := depView_markCondition_aggregate rabbitBrokerCondSet hagg t2 o2.dependent
    ConditionStatus.False B mB
    (markCondition rabbitBrokerCondSet t1 o1.dependent ConditionStatus.False A mA b.Status)
  have hya := depView_markCondition_aggregate rabbitBrokerCondSet hagg t4 o1.dependent
    ConditionStatus.False A mA
    (markCondition rabbitBrokerCondSet t3 o2.dependent ConditionStatus.False B mB b.Status)
  generalize hxs : markCondition rabbitBrokerCondSet t2 o2.dependent ConditionStatus.False B mB
    (markCondition rabbitBrokerCondSet t1 o1.dependent ConditionStatus.False A mA b.Status) = xs
    at hx hxa
  generalize hys : markCondition rabbitBrokerCondSet t4 o1.dependent ConditionStatus.False A mA
    (markCondition rabbitBrokerCondSet t3 o2.dependent ConditionStatus.False B mB b.Status) = ys
    at hy hya
  have hxy : ∀ d ∈ rabbitBrokerCondSet.dependents, depView xs d = depView ys d := by
    intro d hd
    rw [hx d hd, hy d hd]
    by_cases h1 : d = o1.dependent
    · have h2 : d ≠ o2.dependent := fun h => hd12 (h1.symm.trans h)
      simp [h1, hd12]
    · by_cases h2 : d = o2.dependent
      · subst h2
        simp [h1]
      · simp [h1, h2]
  have hag : aggregateOf rabbitBrokerCondSet xs = aggregateOf rabbitBrokerCondSet ys :=
    aggregateOf_congr _ _ _ hxy
  have hx1 : statusOf xs o1.dependent = ConditionStatus.False := by
    have := congrArg Prod.fst (hx o1.dependent o1.dependent_mem)
    simpa [depView, hd12] using this
  obtain ⟨d, hd⟩ := find_false_of_mem rabbitBrokerCondSet xs o1.dependent o1.dependent_mem hx1
  have hdy : rabbitBrokerCondSet.dependents.find?
      (fun t => statusOf ys t = ConditionStatus.False) = some d := by
    rw [← hd]
    apply find?_congr_on
    intro t ht
    have := congrArg Prod.fst (hxy t ht)
    simp only [depView] at this
    simp [this]
  have hxv := aggregateOf_of_find_false _ _ _ hd
  have hyv := aggregateOf_of_find_false _ _ _ hdy
  rw [hxv] at hxa
  rw [hyv] at hya
  have hdm := List.mem_of_find?_eq_some hd
  have hrd : reasonOf xs d = reasonOf ys d := congrArg (fun v => v.2.1) (hxy d hdm)
  have hxr : reasonOf xs "Ready" = reasonOf xs d := congrArg (fun v => v.2.1) hxa
  have hyr : reasonOf ys "Ready" = reasonOf ys d := congrArg (fun v => v.2.1) hya
  refine ⟨{ b with Status := xs }, { b with Status := ys }, ?_, ?_,
    congrArg Prod.fst hxa, congrArg Prod.fst hya, ?_, ⟨d, hd, hdy, hxr, hyr⟩, ?_⟩
  · simp [applyOptions, FailedOption.run_eq, hxs]
  · simp [applyOptions, FailedOption.run_eq, hys]
  · show reasonOf xs "Ready" = reasonOf ys "Ready"
    rw [hxr, hyr, hrd]
  · intro hother
    show reasonOf xs "Ready" = _
    rw [hxr]
    have v1 := hx "TriggerChannel" (by decide)
    have v2 := hx "Exchange" (by decide)
    have v3 := hx "Filter" (by decide)
    have v4 := hx "Ingress" (by decide)
    have n1 := hother FailedOption.triggerChannel
    have n2 := hother FailedOption.exchange
    have n3 := hother FailedOption.filter
    have n4 := hother FailedOption.ingress
    obtain ⟨p1, p2, p3, p4⟩ := FailedOption.position_values
    simp only [depView, Prod.mk.injEq] at v1 v2 v3 v4
    clear hxs hys hxa hya hag hxv hyv hy hxy hdy hyr hrd hx hdm hx1 hxr hd12 hagg
    cases o1 <;> cases o2 <;>
      simp_all [FailedOption.dependent, rabbitBrokerCondSet, List.find?, p1, p2, p3, p4]

/-- Witness of C2: on a freshly initialized Broker, failing Ingress with
"IngressDown" and Filter with "FilterDown" gives the Ready reason "FilterDown"
in both orders, Filter being declared before Ingress. -/
theorem failed_dependents_attribution_witness :
    FailedOption.ingress ≠ FailedOption.filter ∧
    ∃ x y : Broker,
      applyOptions
          [FailedOption.ingress.run 1 "IngressDown" "no endpoints",
            FailedOption.filter.run 2 "FilterDown" "no filter"] exampleInitializedBroker =
        some x ∧
      applyOptions
          [FailedOption.filter.run 3 "FilterDown" "no filter",
            FailedOption.ingress.run 4 "IngressDown" "no endpoints"] exampleInitializedBroker =
        some y ∧
      reasonOf x.Status "Ready" = "FilterDown" ∧ reasonOf y.Status "Ready" = "FilterDown" := by
  obtain ⟨x, y, hx, hy, _, _, hxy, _, hattr⟩ :=
    failed_dependents_attribution exampleInitializedBroker FailedOption.ingress
      FailedOption.filter (by decide) "IngressDown" "FilterDown" "no endpoints" "no filter" 1 2 3 4
  have h := hattr (by intro o _ _; cases o <;> decide)
  have hv : (if FailedOption.ingress.position < FailedOption.filter.position then "IngressDown"
      else "FilterDown") = "FilterDown" := by decide
  exact ⟨by decide, x, y, hx, hy, h.trans hv, hxy ▸ h.trans hv⟩

/-- C4: from a Broker whose conditions were just initialized by
`WithInitBrokerConditions`, every sequence of the dependent-marking options of
the file runs through and leaves the three-valued AND: Ready is True exactly
when every dependent is True, False exactly when some dependent is False, and
Unknown otherwise.  The Broker handed to `WithInitBrokerConditions` has no
conditions yet, as the literal of `NewBroker`, or else at least one option is
applied. -/
theorem marking_options_keep_three_valued_and (b : Broker) (now : Time)
    (seq : List MarkOption) (hb : (b.Status.Conditions = fun _ => none) ∨ seq ≠ []) :
    ∃ b1 : Broker,
      applyOptions (seq.map MarkOption.run) (WithInitBrokerConditions now b) = some b1 ∧
      ThreeValuedAnd rabbitBrokerCondSet b1.Status := by
  rcases hb with hb | hb
  · obtain ⟨b1, h1, hc⟩ :=
      applyOptions_marks_current seq (WithInitBrokerConditions now b)
        (WithInitBrokerConditions_current now b hb)
    exact ⟨b1, h1, ThreeValuedAnd_of_current _ _ hc⟩
  · cases seq with
    | nil => exact absurd rfl hb
    | cons o rest =>
      obtain ⟨b1, h1, hc1⟩ :=
        MarkOption.run_current o (WithInitBrokerConditions now b)
          (WithInitBrokerConditions_initialized now b)
      obtain ⟨b2, h2, hc2⟩ := applyOptions_marks_current rest b1 hc1
      exact ⟨b2, by simp [applyOptions, h1, h2], ThreeValuedAnd_of_current _ _ hc2⟩

/-- Witness of C4: the scenario of §8 run on the literal of `NewBroker`. -/
theorem marking_options_keep_three_valued_and_witness :
    (((newBrokerLiteral "broker" "default").Status.Conditions = fun _ => none) ∨
      [MarkOption.triggerChannelReady exampleHelper.ReadyChannelStatus 1,
        MarkOption.filterAvailable exampleHelper.AvailableEndpoints 2,
        MarkOption.ingressFailed 3 "ServiceUnavailable" "no endpoints",
        MarkOption.ingressAvailable exampleHelper.AvailableEndpoints 4] ≠ []) ∧
    ∃ b1 : Broker,
      applyOptions
          ([MarkOption.triggerChannelReady exampleHelper.ReadyChannelStatus 1,
            MarkOption.filterAvailable exampleHelper.AvailableEndpoints 2,
            MarkOption.ingressFailed 3 "ServiceUnavailable" "no endpoints",
            MarkOption.ingressAvailable exampleHelper.AvailableEndpoints 4].map MarkOption.run)
          (WithInitBrokerConditions 0 (newBrokerLiteral "broker" "default")) = some b1 ∧
      ThreeValuedAnd rabbitBrokerCondSet b1.Status :=
  ⟨Or.inl rfl, marking_options_keep_three_valued_and (newBrokerLiteral "broker" "default") 0
    [MarkOption.triggerChannelReady exampleHelper.ReadyChannelStatus 1,
      MarkOption.filterAvailable exampleHelper.AvailableEndpoints 2,
      MarkOption.ingressFailed 3 "ServiceUnavailable" "no endpoints",
      MarkOption.ingressAvailable exampleHelper.AvailableEndpoints 4] (Or.inl rfl)⟩

/-- Counterexample to C2: on the initialized Broker whose TriggerChannel was
marked failed with "ChannelGone", marking Filter failed with "A" and Ingress
failed with "B" gives in both orders the Ready reason "ChannelGone", not "A",
the reason of Filter, which is declared before Ingress. -/
theorem attribution_names_an_earlier_failure :
    ∃ x y : Broker,
      WithTriggerChannelFailed 1 "ChannelGone" "no channel" exampleInitializedBroker =
        some exampleChannelFailedBroker ∧
      ConditionsInitialized rabbitBrokerCondSet exampleChannelFailedBroker.Status ∧
      applyOptions [WithFilterFailed 2 "A" "", WithIngressFailed 3 "B" ""]
          exampleChannelFailedBroker = some x ∧
      applyOptions [WithIngressFailed 4 "B" "", WithFilterFailed 5 "A" ""]
          exampleChannelFailedBroker = some y ∧
      reasonOf x.Status "Ready" = "ChannelGone" ∧
      reasonOf y.Status "Ready" = "ChannelGone" ∧
      reasonOf x.Status "Ready" ≠ "A" :=
  ⟨_, _, rfl, by decide, rfl, rfl, by decide, by decide, by decide⟩

end Rabbit
